import Mathlib

/-!
Verification of the d2runner input pipeline and run tracker.

Python strings are modelled as `List Char` (`PyStr`); Python dicts keyed by
strings are modelled as functions `String → Option _` or total funmaps;
monotonic clock readings (`time.monotonic`, float seconds) are modelled as
rationals and wall-clock datetimes as abstract integers.  Each definition
below is a direct translation of the function of the same name in
`d2runner/hotkeys.py`, `d2runner/controller.py` or `d2runner/core.py`.
-/

namespace D2Runner

/-! Python string primitives used by `hotkeys.py`. -/

abbrev PyStr := List Char

/-- Whitespace characters removed by Python `str.strip()`. -/
def pyIsSpace (c : Char) : Bool :=
  c = ' ' || c = '\t' || c = '\n' || c = '\r' || c = '\x0b' || c = '\x0c'

/-- Python `str.strip()`: drop whitespace from both ends. -/
def pyStrip (s : PyStr) : PyStr :=
  ((s.dropWhile pyIsSpace).reverse.dropWhile pyIsSpace).reverse

/-- Python `str.lower()` (ASCII case folding, which is all the codec needs). -/
def pyLower (s : PyStr) : PyStr := s.map Char.toLower

/-- Worker for `pySplit`: `acc` holds the reversed current chunk. -/
def pySplitAux (sep : Char) : PyStr → List Char → List PyStr
  | [], acc => [acc.reverse]
  | c :: cs, acc =>
    if c = sep then acc.reverse :: pySplitAux sep cs []
    else pySplitAux sep cs (c :: acc)

/-- Python `str.split(sep)` for a one-character separator: no collapsing of
empty chunks, and the empty string splits to `[""]`. -/
def pySplit (sep : Char) (s : PyStr) : List PyStr := pySplitAux sep s []

/-- Python `sep.join(parts)`. -/
def pyJoin (sep : PyStr) : List PyStr → PyStr
  | [] => []
  | [x] => x
  | x :: xs => x ++ sep ++ pyJoin sep xs

/-! Combo codec (`hotkeys.py`, `normalize_combo_string` / `parse_combo_string`). -/

/-- The synonym table in `normalize_combo_string`:
`command→cmd`, `option→alt`, `control→ctrl`. -/
def synMap (p : PyStr) : PyStr :=
  if p = "command".toList then "cmd".toList
  else if p = "option".toList then "alt".toList
  else if p = "control".toList then "ctrl".toList
  else p

/-- Membership in the modifier set `{"cmd", "alt", "ctrl", "shift"}`. -/
def isModName (p : PyStr) : Bool :=
  p = "cmd".toList || p = "alt".toList || p = "ctrl".toList || p = "shift".toList

/-- The list comprehension
`[p.strip().lower() for p in combo.split("+") if p.strip()]`. -/
def comboParts (s : PyStr) : List PyStr :=
  (pySplit '+' s).filterMap fun p =>
    if pyStrip p = [] then none else some (pyLower (pyStrip p))

/-- The `for part in parts` loop of `normalize_combo_string`: collect
modifiers (deduplicated, first-seen order) and let the last non-modifier
token win as the key. -/
def normLoop : List PyStr → List PyStr → PyStr → List PyStr × PyStr
  | [], mods, key => (mods, key)
  | part :: rest, mods, key =>
    let p := synMap part
    if isModName p then
      normLoop rest (if p ∈ mods then mods else mods ++ [p]) key
    else
      normLoop rest mods p

/-- `normalize_combo_string` from `hotkeys.py`. -/
def normalize_combo_string (s : PyStr) : PyStr :=
  let parts := comboParts s
  if parts = [] then []
  else
    let mk := normLoop parts [] []
    if mk.2 = [] then pyJoin ['+'] mk.1
    else pyJoin ['+'] (mk.1 ++ [mk.2])

/-- `parse_combo_string` from `hotkeys.py`: re-split the normalized form,
treat the final chunk as the key and the rest as the modifier set
(`frozenset` modelled as `Finset`). -/
def parse_combo_string (s : PyStr) : Option (Finset PyStr × PyStr) :=
  let norm := normalize_combo_string s
  if norm = [] then none
  else
    let parts := pySplit '+' norm
    if parts = [] then none
    else
      let mods := parts.dropLast.filter (fun p => p ≠ [])
      let key := parts.getLastD []
      if key = [] then none
      else some (mods.toFinset, key)

/-- The modifier set named by a raw combo string: its trimmed, lowercased,
synonym-folded tokens that are modifier names, as a set. -/
def modsNamed (s : PyStr) : Finset PyStr :=
  (((comboParts s).map synMap).filter isModName).toFinset

/-- The key token named by a raw combo string: the last trimmed, lowercased,
synonym-folded token that is not a modifier name, if any. -/
def keyNamed (s : PyStr) : Option PyStr :=
  (((comboParts s).map synMap).filter (fun p => !(isModName p))).getLast?

example : normalize_combo_string "Ctrl+Alt+1".toList = "ctrl+alt+1".toList := by decide
example : normalize_combo_string "ctrl+alt".toList = "ctrl+alt".toList := by decide
example : parse_combo_string "ctrl+alt".toList =
    some ({"ctrl".toList}, "alt".toList) := by decide
example : parse_combo_string "".toList = none := by decide
example : parse_combo_string "Ctrl+Alt+1".toList =
    some ((["ctrl".toList, "alt".toList] : List PyStr).toFinset, "1".toList) := rfl
example : parse_combo_string "alt+ctrl+1".toList =
    some ((["alt".toList, "ctrl".toList] : List PyStr).toFinset, "1".toList) := rfl
example : keyNamed "Ctrl+Alt+1".toList = some "1".toList := by decide
example : modsNamed "Ctrl+Alt+1".toList = modsNamed "alt+ctrl+1".toList := by
  show (["ctrl".toList, "alt".toList] : List PyStr).toFinset =
    (["alt".toList, "ctrl".toList] : List PyStr).toFinset
  exact List.toFinset_eq_of_perm _ _ (List.Perm.swap _ _ _)

/-! Run tracker and run log (`core.py`).  `time.monotonic()` readings are
rationals (seconds); wall-clock datetimes are abstract integers; the CSV
store owned by `CsvRunLogger` is a list of records. -/

/-- Python `int(q)`: truncation toward zero. -/
def pyInt (q : ℚ) : Int := q.num / (q.den : Int)

/-- `RunRecord` from `core.py` (the `duration_sec` display copy is
`duration_ms / 1000`). -/
structure RunRecord where
  session_id : String
  run_number : Nat
  started_at : Int
  ended_at : Int
  duration_ms : Int
  duration_sec : ℚ
  note : String
  deriving DecidableEq

/-- The scan of `CsvRunLogger.undo_last_for_session`: walk the rows from the
end, delete the first (hence highest-index) row whose session id matches,
keep everything else in place; `none` when no row matches. -/
def removeLastForSession (sid : String) : List RunRecord → Option (List RunRecord)
  | [] => none
  | r :: rs =>
    match removeLastForSession sid rs with
    | some rs2 => some (r :: rs2)
    | none => if r.session_id = sid then some rs else none

/-- `CsvRunLogger.undo_last_for_session`: `none` models a missing CSV file
(returns false untouched); otherwise rewrite the store without the most
recent matching row, reporting whether one was removed. -/
def undo_last_for_session (sid : String) (store : Option (List RunRecord)) :
    Bool × Option (List RunRecord) :=
  match store with
  | none => (false, none)
  | some rows =>
    match removeLastForSession sid rows with
    | some rows2 => (true, some rows2)
    | none => (false, some rows)

/-- `RunTracker` state (`core.py`): the `log` field is the record sequence
held by the tracker's `CsvRunLogger`. -/
structure TrackerState where
  session_id : String
  run_number : Nat
  saved_runs_count : Nat
  running : Bool
  started_monotonic : Option ℚ
  started_at_dt : Option Int
  elapsed_ms_accumulated : Int
  last_record : Option RunRecord
  log : List RunRecord
  deriving DecidableEq

/-- `RunTracker.__init__` with the freshly generated session id abstracted
as a parameter; the logger starts with an empty (header-only) store. -/
def initTracker (sid : String) : TrackerState :=
  { session_id := sid
    run_number := 1
    saved_runs_count := 0
    running := false
    started_monotonic := none
    started_at_dt := none
    elapsed_ms_accumulated := 0
    last_record := none
    log := [] }

/-- `RunTracker.current_elapsed_ms` evaluated at monotonic time `now`. -/
def current_elapsed_ms (now : ℚ) (st : TrackerState) : Int :=
  let ms := st.elapsed_ms_accumulated +
    (if st.running then
      match st.started_monotonic with
      | some t => pyInt ((now - t) * 1000)
      | none => 0
    else 0)
  max ms 0

/-- `RunTracker.start` at monotonic time `nowM`, wall clock `nowD`. -/
def TrackerState.start (nowM : ℚ) (nowD : Int) (st : TrackerState) : TrackerState :=
  if st.running then st
  else
    let st1 := if st.started_at_dt = none then { st with started_at_dt := some nowD } else st
    { st1 with started_monotonic := some nowM, running := true }

/-- `RunTracker.stop` at monotonic time `nowM`: fold the live delta into the
accumulator and clear the start instant. -/
def TrackerState.stop (nowM : ℚ) (st : TrackerState) : TrackerState :=
  if st.running then
    { st with
      elapsed_ms_accumulated := current_elapsed_ms nowM st
      started_monotonic := none
      running := false }
  else st

/-- `RunTracker.toggle_start_stop`. -/
def toggle_start_stop (nowM : ℚ) (nowD : Int) (st : TrackerState) : String × TrackerState :=
  if st.running then ("stopped", st.stop nowM)
  else ("started", st.start nowM nowD)

/-- `RunTracker.reset_timer`. -/
def reset_timer (st : TrackerState) : TrackerState :=
  { st with
    running := false
    started_monotonic := none
    started_at_dt := none
    elapsed_ms_accumulated := 0 }

/-- `RunTracker.reset_session` with the new random session id abstracted as
a parameter. -/
def reset_session (newSid : String) (st : TrackerState) : TrackerState :=
  { reset_timer st with
    session_id := newSid
    run_number := 1
    saved_runs_count := 0
    last_record := none }

/-- `RunTracker.next_run` at monotonic time `nowM`, wall clock `nowD`. -/
def next_run (note : String) (max_saved_runs : Option Nat) (nowM : ℚ) (nowD : Int)
    (st : TrackerState) : Option RunRecord × String × TrackerState :=
  match st.started_at_dt with
  | some d0 =>
    let st1 := if st.running then st.stop nowM else st
    let duration := current_elapsed_ms nowM st1
    let saved : RunRecord :=
      { session_id := st1.session_id
        run_number := st1.run_number
        started_at := d0
        ended_at := nowD
        duration_ms := duration
        duration_sec := (duration : ℚ) / 1000
        note := note.trim }
    let st2 := { st1 with
      log := st1.log ++ [saved]
      last_record := some saved
      saved_runs_count := st1.saved_runs_count + 1
      run_number := st1.run_number + 1 }
    let st3 := reset_timer st2
    match max_saved_runs with
    | some m =>
      if st3.saved_runs_count ≥ m then (some saved, "saved_limit_reached", st3)
      else (some saved, "saved_and_started_next", st3.start nowM nowD)
    | none => (some saved, "saved_and_started_next", st3.start nowM nowD)
  | none => (none, "started_first_run", st.start nowM nowD)

/-- `RunTracker.undo_last_run` at monotonic time `now`. -/
def undo_last_run (now : ℚ) (st : TrackerState) : (Bool × String) × TrackerState :=
  if st.started_at_dt ≠ none ∨ current_elapsed_ms now st > 0 then
    ((false, "active_run_present"), st)
  else
    match removeLastForSession st.session_id st.log with
    | none => ((false, "no_rows"), st)
    | some log2 =>
      ((true, "ok"),
        { st with
          log := log2
          run_number := if st.run_number > 1 then st.run_number - 1 else st.run_number
          saved_runs_count :=
            if st.saved_runs_count > 0 then st.saved_runs_count - 1 else st.saved_runs_count })

/-- Number of stored records belonging to a session. -/
def countForSession (sid : String) (log : List RunRecord) : Nat :=
  (log.filter fun r => r.session_id == sid).length

/-- One `NextRun(note, maxSavedRuns)` call together with the clock readings
at which it happens. -/
structure NextRunCall where
  note : String
  max_saved_runs : Option Nat
  nowM : ℚ
  nowD : Int

/-- Apply a sequence of `next_run` calls, keeping only the tracker state. -/
def applyNextRuns (st : TrackerState) : List NextRunCall → TrackerState
  | [] => st
  | c :: cs => applyNextRuns (next_run c.note c.max_saved_runs c.nowM c.nowD st).2.2 cs

/-! Keyboard backend (`hotkeys.py`, class `HotkeyBackend`).  The
`_last_action_at` dict is a funmap `String → Option ℚ`; the `on_action`
callback and the native listener are outside the embedding. -/

/-- `ACTION_ORDER` from `hotkeys.py`. -/
def ACTION_ORDER : List String :=
  ["toggle_start_stop", "next_run", "reset_timer", "reset_session", "undo_last"]

/-- `HotkeyBackend._reload_parsed_bindings`: parse the combo configured for
each action in declaration order, skipping invalid combos. -/
def reloadParsedBindings (keyboard_map : String → PyStr) :
    List (String × (Finset PyStr × PyStr)) :=
  ACTION_ORDER.filterMap fun action =>
    (parse_combo_string (keyboard_map action)).map fun p => (action, p)

/-- Mutable state of `HotkeyBackend`. -/
structure HotkeyBackend where
  enabled : Bool
  keyboard_map : String → PyStr
  parsed_bindings : List (String × (Finset PyStr × PyStr))
  pressed_mods : Finset String
  fired_keys : Finset PyStr
  last_action_at : String → Option ℚ
  repeat_guard_ms : Int

/-- `HotkeyBackend.__init__`: note the hard-coded `_repeat_guard_ms = 700`;
the constructor takes no guard and reads none from any configuration. -/
def HotkeyBackend.init (keyboard_map : String → PyStr) (enabled : Bool) : HotkeyBackend :=
  { enabled := enabled
    keyboard_map := keyboard_map
    parsed_bindings := reloadParsedBindings keyboard_map
    pressed_mods := ∅
    fired_keys := ∅
    last_action_at := fun _ => none
    repeat_guard_ms := 700 }

/-- `HotkeyBackend.reload_bindings`. -/
def reload_bindings (st : HotkeyBackend) (keyboard_map : String → PyStr)
    (enabled : Option Bool) : HotkeyBackend :=
  let st1 :=
    match enabled with
    | some e => { st with enabled := e }
    | none => st
  { st1 with
    keyboard_map := keyboard_map
    parsed_bindings := reloadParsedBindings keyboard_map }

/-- `HotkeyBackend._should_throttle_action` at monotonic time `now`
(seconds): record `now` for the action unconditionally, throttle iff a
previous firing exists and lies within the guard. -/
def should_throttle_action (st : HotkeyBackend) (action : String) (now : ℚ) :
    Bool × HotkeyBackend :=
  let last := st.last_action_at action
  let st2 := { st with
    last_action_at := fun a => if a = action then some now else st.last_action_at a }
  match last with
  | none => (false, st2)
  | some t => (decide ((now - t) * 1000 < (st.repeat_guard_ms : ℚ)), st2)

/-! Controller backend (`controller.py`). -/

/-- `ControllerConfig` dataclass; the two dict fields are funmaps. -/
structure ControllerConfig where
  enabled : Bool
  device_index : Int
  hat_index : Int
  dpad_map : String → String
  keyboard_map : String → String
  repeat_guard_ms : Int

/-- The throttle state of `ControllerBackend`: its config and the
`_last_fired_at` dict. -/
structure ControllerBackend where
  config : ControllerConfig
  last_fired_at : String → Option ℚ

/-- `ControllerBackend._should_throttle` at monotonic time `now` (seconds):
same sliding guard as the keyboard side, with the guard taken from
`config.repeat_guard_ms` clamped at zero. -/
def should_throttle (cb : ControllerBackend) (direction : String) (now : ℚ) :
    Bool × ControllerBackend :=
  let last := cb.last_fired_at direction
  let cb2 := { cb with
    last_fired_at := fun d => if d = direction then some now else cb.last_fired_at d }
  match last with
  | none => (false, cb2)
  | some t =>
    (decide ((now - t) * 1000 < ((max cb.config.repeat_guard_ms 0 : Int) : ℚ)), cb2)

/-- The four D-pad directions. -/
inductive Dir where
  | up
  | right
  | down
  | left
  deriving DecidableEq

/-- `ControllerBackend._direction_from_hat`: only the four cardinal hat
values map to a direction. -/
def direction_from_hat (v : Int × Int) : Option Dir :=
  if v = (0, 1) then some .up
  else if v = (1, 0) then some .right
  else if v = (0, -1) then some .down
  else if v = (-1, 0) then some .left
  else none

/-- `ControllerBackend._poll_axes_dpad` on the two raw axis values
(floats modelled as rationals): quantize against the 0.5 threshold, then
map the cardinal quantized pairs. -/
def poll_axes_dpad (x y : ℚ) : Option Dir :=
  let threshold : ℚ := 1 / 2
  let qx : Int := if x < -threshold then -1 else if x > threshold then 1 else 0
  let qy : Int := if y < -threshold then -1 else if y > threshold then 1 else 0
  if (qx, qy) = (0, 0) then none
  else if (qx, qy) = (0, -1) then some .up
  else if (qx, qy) = (1, 0) then some .right
  else if (qx, qy) = (0, 1) then some .down
  else if (qx, qy) = (-1, 0) then some .left
  else none

/-- `ControllerBackend._guess_dpad_button_map`: buttons 11..14 on layouts
with at least 15 buttons. -/
def buttonDpadMap (i : Nat) : Option Dir :=
  if i = 11 then some .up
  else if i = 12 then some .down
  else if i = 13 then some .left
  else if i = 14 then some .right
  else none

/-- `ControllerBackend._poll_buttons_dpad`: direction of the lowest newly
pressed D-pad button (sorted scan), new pressed set recorded. -/
def poll_buttons_dpad (pressed_now prev : Finset Nat) : Option Dir × Finset Nat :=
  let newly := (pressed_now \ prev).sort (· ≤ ·)
  (match newly with
   | [] => none
   | i :: _ => buttonDpadMap i, pressed_now)

/-- `ControllerBackend._poll_xinput_dpad` on a successfully read button
bitmask: bits newly set since the previous read, checked in the fixed order
up (0x0001), right (0x0008), down (0x0002), left (0x0004). -/
def poll_xinput_dpad (buttons : Nat) (prev : Option Nat) : Option Dir × Option Nat :=
  let prev0 := prev.getD 0
  let newly := Nat.ldiff buttons prev0
  let direction : Option Dir :=
    if newly &&& 0x0001 ≠ 0 then some .up
    else if newly &&& 0x0008 ≠ 0 then some .right
    else if newly &&& 0x0002 ≠ 0 then some .down
    else if newly &&& 0x0004 ≠ 0 then some .left
    else none
  (direction, some buttons)

/-- The per-source edge-detection state carried across poll ticks in
`ControllerBackend._run`. -/
structure TickState where
  prev_hat : Option (Int × Int)
  prev_axes_dir : Option Dir
  prev_buttons : Finset Nat
  prev_xinput : Option Nat

/-- The raw readings available in one poll tick: `none` for a source that is
absent (not initialized / not detected) this tick. -/
structure TickInput where
  xinput : Option Nat
  hat : Option (Int × Int)
  axes : Option (ℚ × ℚ)
  buttons : Option (Finset Nat)

/-- The direction-resolution section of one iteration of
`ControllerBackend._run`: consult XInput, then the hat (edge-triggered),
then the axis pair (edge-triggered), then the button map, stopping as soon
as a direction is set. -/
def resolveTick (inp : TickInput) (st : TickState) : Option Dir × TickState :=
  let direction : Option Dir := none
  let step1 : Option Dir × Option Nat :=
    match inp.xinput with
    | none => (direction, st.prev_xinput)
    | some b =>
      let r := poll_xinput_dpad b st.prev_xinput
      (match r.1 with
       | some d => some d
       | none => direction, r.2)
  let direction := step1.1
  let step2 : Option Dir × Option (Int × Int) :=
    if direction = none then
      match inp.hat with
      | none => (direction, st.prev_hat)
      | some v =>
        if some v ≠ st.prev_hat then (direction_from_hat v, some v)
        else (direction, st.prev_hat)
    else (direction, st.prev_hat)
  let direction := step2.1
  let step3 : Option Dir × Option Dir :=
    if direction = none then
      match inp.axes with
      | none => (direction, st.prev_axes_dir)
      | some a =>
        let ad := poll_axes_dpad a.1 a.2
        if ad ≠ st.prev_axes_dir then (ad, ad) else (direction, st.prev_axes_dir)
    else (direction, st.prev_axes_dir)
  let direction := step3.1
  let step4 : Option Dir × Finset Nat :=
    if direction = none then
      match inp.buttons with
      | none => (direction, st.prev_buttons)
      | some pressed => poll_buttons_dpad pressed st.prev_buttons
    else (direction, st.prev_buttons)
  (step4.1,
    { prev_hat := step2.2
      prev_axes_dir := step3.2
      prev_buttons := step4.2
      prev_xinput := step1.2 })

/-- The record built by the saving branch of `next_run`. -/
def nextRunRecord (note : String) (nowM : ℚ) (nowD : Int) (st : TrackerState)
    (d0 : Int) : RunRecord :=
  let st1 := if st.running then st.stop nowM else st
  { session_id := st1.session_id
    run_number := st1.run_number
    started_at := d0
    ended_at := nowD
    duration_ms := current_elapsed_ms nowM st1
    duration_sec := ((current_elapsed_ms nowM st1 : Int) : ℚ) / 1000
    note := note.trim }

/-- The tracker state after the saving branch of `next_run` has appended the
record, bumped the counters and reset the timer (before any restart). -/
def nextRunSavedState (note : String) (nowM : ℚ) (nowD : Int) (st : TrackerState)
    (d0 : Int) : TrackerState :=
  let st1 := if st.running then st.stop nowM else st
  reset_timer
    { st1 with
      log := st1.log ++ [nextRunRecord note nowM nowD st d0]
      last_record := some (nextRunRecord note nowM nowD st d0)
      saved_runs_count := st1.saved_runs_count + 1
      run_number := st1.run_number + 1 }

/-- The modifier-collection step of `normalize_combo_string`: append a
modifier unless it is already present. -/
def insMod (ms : List PyStr) (p : PyStr) : List PyStr :=
  if p ∈ ms then ms else ms ++ [p]

/-! Helper lemmas. -/

lemma pyInt_zero : pyInt 0 = 0 := rfl

/-- Rows with no matching session id are left untouched by the scan. -/
lemma removeLastForSession_eq_none (sid : String) :
    ∀ rows : List RunRecord, (∀ x ∈ rows, x.session_id ≠ sid) →
      removeLastForSession sid rows = none := by
  intro rows
  induction rows with
  | nil => intro _; rfl
  | cons r rs ih =>
    intro h
    have hr : r.session_id ≠ sid := h r (List.mem_cons_self r rs)
    have hrs := ih fun x hx => h x (List.mem_cons_of_mem r hx)
    simp [removeLastForSession, hrs, hr]

/-- The scan removes exactly the highest-index matching row. -/
lemma removeLastForSession_concat (sid : String) (r : RunRecord)
    (hr : r.session_id = sid) :
    ∀ (l1 l2 : List RunRecord), (∀ x ∈ l2, x.session_id ≠ sid) →
      removeLastForSession sid (l1 ++ r :: l2) = some (l1 ++ l2) := by
  intro l1
  induction l1 with
  | nil =>
    intro l2 h2
    simp [removeLastForSession, removeLastForSession_eq_none sid l2 h2, hr]
  | cons a l1 ih =>
    intro l2 h2
    simp only [List.cons_append, removeLastForSession, List.append_eq, ih l2 h2]

/-! Claim theorems. -/

/-- C1: the claim fails on the code.  A modifiers-only combo such as
"ctrl+alt" is not rejected: `normalize_combo_string` returns it unchanged,
and `parse_combo_string` re-splits it and takes the trailing modifier
"alt" as the key token, so a parsed combo is produced instead of `None`. -/
theorem parse_combo_modifiers_only_not_rejected :
    parse_combo_string "ctrl+alt".toList = some ({"ctrl".toList}, "alt".toList) ∧
    parse_combo_string "ctrl+alt".toList ≠ none := by
  refine ⟨by decide, by decide⟩

/-- C6: `reset_timer` sets the running flag to false, clears the start
instant and the start timestamp, zeroes the accumulated elapsed
milliseconds, and leaves the run number, session id, saved-run count, last
record and the log unchanged. -/
theorem reset_timer_frame (st : TrackerState) :
    (reset_timer st).running = false ∧
    (reset_timer st).started_monotonic = none ∧
    (reset_timer st).started_at_dt = none ∧
    (reset_timer st).elapsed_ms_accumulated = 0 ∧
    (reset_timer st).run_number = st.run_number ∧
    (reset_timer st).session_id = st.session_id ∧
    (reset_timer st).saved_runs_count = st.saved_runs_count ∧
    (reset_timer st).last_record = st.last_record ∧
    (reset_timer st).log = st.log := by
  simp [reset_timer]

/-- C3: `undo_last_run` fails with `active_run_present` and leaves the
tracker untouched exactly when a start timestamp is set or the current
elapsed time is nonzero (so it always fails while `reset_timer` has not
been called since a start, even if elapsed reads zero); otherwise it
delegates to the log scan and, on success, decrements the run number with
floor 1 and the saved-run count with floor 0, and reports `no_rows` when no
record of the current session exists. -/
theorem undo_last_run_spec (now : ℚ) (st : TrackerState) :
    ((st.started_at_dt ≠ none ∨ 0 < current_elapsed_ms now st) →
      undo_last_run now st = ((false, "active_run_present"), st)) ∧
    ((undo_last_run now st).1.2 = "active_run_present" ↔
      (st.started_at_dt ≠ none ∨ 0 < current_elapsed_ms now st)) ∧
    (st.started_at_dt = none → current_elapsed_ms now st = 0 →
      (removeLastForSession st.session_id st.log = none →
        undo_last_run now st = ((false, "no_rows"), st)) ∧
      (∀ log2, removeLastForSession st.session_id st.log = some log2 →
        undo_last_run now st = ((true, "ok"),
          { st with
            log := log2
            run_number := if st.run_number > 1 then st.run_number - 1 else st.run_number
            saved_runs_count := if st.saved_runs_count > 0 then st.saved_runs_count - 1
              else st.saved_runs_count }))) := by
  by_cases hg : st.started_at_dt ≠ none ∨ 0 < current_elapsed_ms now st
  · refine ⟨fun _ => by simp [undo_last_run, hg], ?_, ?_⟩
    · simp [undo_last_run, hg]
    · intro h1 h2
      exact absurd hg (by simp [h1, h2])
  · refine ⟨fun h => absurd h hg, ?_, ?_⟩
    · cases h : removeLastForSession st.session_id st.log with
      | none => simp [undo_last_run, hg, h]
      | some log2 => simp [undo_last_run, hg, h]
    · intro _ _
      refine ⟨fun h => by simp [undo_last_run, hg, h], fun log2 h => ?_⟩
      simp [undo_last_run, hg, h]

/-- Witness for C3: on an idle tracker holding one record of its own
session, undo succeeds, reverting the run number to 1 and the saved count
to 0; the hypotheses of `undo_last_run_spec` are discharged concretely. -/
theorem undo_last_run_spec_witness :
    let r0 : RunRecord :=
      { session_id := "s1", run_number := 1, started_at := 0, ended_at := 5,
        duration_ms := 5000, duration_sec := 5, note := "" }
    let st : TrackerState :=
      { initTracker "s1" with log := [r0], run_number := 2, saved_runs_count := 1 }
    st.started_at_dt = none ∧ current_elapsed_ms 0 st = 0 ∧
    removeLastForSession st.session_id st.log = some [] ∧
    undo_last_run 0 st =
      ((true, "ok"), { st with log := [], run_number := 1, saved_runs_count := 0 }) := by
  refine ⟨rfl, rfl, by decide, ?_⟩
  have h := (undo_last_run_spec 0
    { initTracker "s1" with
        log := [{ session_id := "s1", run_number := 1, started_at := 0, ended_at := 5,
                  duration_ms := 5000, duration_sec := 5, note := "" }],
        run_number := 2, saved_runs_count := 1 }).2.2 rfl rfl
  exact (h.2 [] (by decide)).trans (by decide)

/-- C5: `undo_last_for_session` removes exactly the last matching record
and rewrites the store preserving every other record in order; it returns
false and leaves the store unchanged when the store is missing or no
record matches. -/
theorem undo_last_for_session_spec (sid : String) (l1 l2 : List RunRecord)
    (r : RunRecord) (hr : r.session_id = sid)
    (h2 : ∀ x ∈ l2, x.session_id ≠ sid) :
    undo_last_for_session sid (some (l1 ++ r :: l2)) = (true, some (l1 ++ l2)) ∧
    undo_last_for_session sid none = (false, none) ∧
    (∀ rows : List RunRecord, (∀ x ∈ rows, x.session_id ≠ sid) →
      undo_last_for_session sid (some rows) = (false, some rows)) := by
  refine ⟨?_, rfl, ?_⟩
  · simp [undo_last_for_session, removeLastForSession_concat sid r hr l1 l2 h2]
  · intro rows h
    simp [undo_last_for_session, removeLastForSession_eq_none sid rows h]

/-- Witness for C5: a concrete store with records of two sessions
interleaved; the record removed is the later "a"-record, the "b"-records
and the earlier "a"-record survive in order. -/
theorem undo_last_for_session_spec_witness :
    let ra1 : RunRecord :=
      { session_id := "a", run_number := 1, started_at := 0, ended_at := 1,
        duration_ms := 1000, duration_sec := 1, note := "x" }
    let rb1 : RunRecord :=
      { session_id := "b", run_number := 1, started_at := 0, ended_at := 2,
        duration_ms := 2000, duration_sec := 2, note := "" }
    let ra2 : RunRecord :=
      { session_id := "a", run_number := 2, started_at := 3, ended_at := 4,
        duration_ms := 1000, duration_sec := 1, note := "" }
    let rb2 : RunRecord :=
      { session_id := "b", run_number := 2, started_at := 5, ended_at := 6,
        duration_ms := 1000, duration_sec := 1, note := "" }
    ra2.session_id = "a" ∧ (∀ x ∈ [rb2], x.session_id ≠ "a") ∧
    undo_last_for_session "a" (some [ra1, rb1, ra2, rb2]) =
      (true, some [ra1, rb1, rb2]) := by
  refine ⟨rfl, by decide, ?_⟩
  exact (undo_last_for_session_spec "a"
    [{ session_id := "a", run_number := 1, started_at := 0, ended_at := 1,
       duration_ms := 1000, duration_sec := 1, note := "x" },
     { session_id := "b", run_number := 1, started_at := 0, ended_at := 2,
       duration_ms := 2000, duration_sec := 2, note := "" }]
    [{ session_id := "b", run_number := 2, started_at := 5, ended_at := 6,
       duration_ms := 1000, duration_sec := 1, note := "" }]
    { session_id := "a", run_number := 2, started_at := 3, ended_at := 4,
      duration_ms := 1000, duration_sec := 1, note := "" }
    rfl (by decide)).1

/-- Reduction of `next_run` with a start timestamp and no run limit. -/
lemma next_run_noLimit_eq (note : String) (nowM : ℚ) (nowD : Int)
    (st : TrackerState) (d0 : Int) (hd : st.started_at_dt = some d0) :
    next_run note none nowM nowD st =
      (some (nextRunRecord note nowM nowD st d0), "saved_and_started_next",
       (nextRunSavedState note nowM nowD st d0).start nowM nowD) := by
  by_cases hr : st.running <;>
    simp [next_run, hd, hr, nextRunRecord, nextRunSavedState, reset_timer,
      TrackerState.stop]

/-- Reduction of `next_run` with a start timestamp and a run limit. -/
lemma next_run_limit_eq (note : String) (m : Nat) (nowM : ℚ) (nowD : Int)
    (st : TrackerState) (d0 : Int) (hd : st.started_at_dt = some d0) :
    next_run note (some m) nowM nowD st =
      (if st.saved_runs_count + 1 ≥ m then
        (some (nextRunRecord note nowM nowD st d0), "saved_limit_reached",
         nextRunSavedState note nowM nowD st d0)
      else
        (some (nextRunRecord note nowM nowD st d0), "saved_and_started_next",
         (nextRunSavedState note nowM nowD st d0).start nowM nowD)) := by
  by_cases hr : st.running <;>
    by_cases hge : st.saved_runs_count + 1 ≥ m <;>
      simp [next_run, hd, hr, hge, nextRunRecord, nextRunSavedState, reset_timer,
        TrackerState.stop]

/-- Field facts about the record saved by `next_run`. -/
lemma nextRunRecord_fields (note : String) (nowM : ℚ) (nowD : Int)
    (st : TrackerState) (d0 : Int) :
    (nextRunRecord note nowM nowD st d0).note = note.trim ∧
    (nextRunRecord note nowM nowD st d0).session_id = st.session_id ∧
    (nextRunRecord note nowM nowD st d0).run_number = st.run_number := by
  by_cases hr : st.running <;> simp [nextRunRecord, hr, TrackerState.stop]

/-- Field facts about the post-save state and its restarted variant. -/
lemma nextRunSavedState_fields (note : String) (nowM : ℚ) (nowD : Int)
    (st : TrackerState) (d0 : Int) :
    (nextRunSavedState note nowM nowD st d0).log =
      st.log ++ [nextRunRecord note nowM nowD st d0] ∧
    (nextRunSavedState note nowM nowD st d0).saved_runs_count =
      st.saved_runs_count + 1 ∧
    (nextRunSavedState note nowM nowD st d0).run_number = st.run_number + 1 ∧
    (nextRunSavedState note nowM nowD st d0).running = false ∧
    (nextRunSavedState note nowM nowD st d0).started_at_dt = none ∧
    (∀ t, current_elapsed_ms t (nextRunSavedState note nowM nowD st d0) = 0) ∧
    ((nextRunSavedState note nowM nowD st d0).start nowM nowD).log =
      st.log ++ [nextRunRecord note nowM nowD st d0] ∧
    ((nextRunSavedState note nowM nowD st d0).start nowM nowD).saved_runs_count =
      st.saved_runs_count + 1 ∧
    ((nextRunSavedState note nowM nowD st d0).start nowM nowD).run_number =
      st.run_number + 1 ∧
    ((nextRunSavedState note nowM nowD st d0).start nowM nowD).running = true ∧
    current_elapsed_ms nowM ((nextRunSavedState note nowM nowD st d0).start nowM nowD)
      = 0 ∧
    (nextRunSavedState note nowM nowD st d0).session_id = st.session_id ∧
    ((nextRunSavedState note nowM nowD st d0).start nowM nowD).session_id =
      st.session_id := by
  by_cases hr : st.running <;>
    simp [nextRunSavedState, nextRunRecord, hr, TrackerState.stop, TrackerState.start,
      reset_timer, current_elapsed_ms, pyInt_zero]

/-- C2: with no start timestamp `next_run` only starts a run (no record,
result `started_first_run`); with a start timestamp it stops if running,
appends one record carrying the trimmed note, bumps the saved count and the
run number, resets the live timer to zero, and then either stops there with
`saved_limit_reached` when the new saved count meets or exceeds the limit
(tracker left not running, elapsed zero at every instant) or restarts and
answers `saved_and_started_next` (elapsed zero at the restart instant). -/
theorem next_run_spec (note : String) (ms : Option Nat) (nowM : ℚ) (nowD : Int)
    (st : TrackerState) :
    (st.started_at_dt = none →
      next_run note ms nowM nowD st =
        (none, "started_first_run", st.start nowM nowD)) ∧
    (st.started_at_dt ≠ none →
      ∃ rec,
        (next_run note ms nowM nowD st).1 = some rec ∧
        rec.note = note.trim ∧
        rec.session_id = st.session_id ∧
        rec.run_number = st.run_number ∧
        (next_run note ms nowM nowD st).2.2.log = st.log ++ [rec] ∧
        (next_run note ms nowM nowD st).2.2.saved_runs_count = st.saved_runs_count + 1 ∧
        (next_run note ms nowM nowD st).2.2.run_number = st.run_number + 1 ∧
        (∀ m, ms = some m → st.saved_runs_count + 1 ≥ m →
          (next_run note ms nowM nowD st).2.1 = "saved_limit_reached" ∧
          (next_run note ms nowM nowD st).2.2.running = false ∧
          (next_run note ms nowM nowD st).2.2.started_at_dt = none ∧
          ∀ t, current_elapsed_ms t (next_run note ms nowM nowD st).2.2 = 0) ∧
        (∀ m, ms = some m → st.saved_runs_count + 1 < m →
          (next_run note ms nowM nowD st).2.1 = "saved_and_started_next" ∧
          (next_run note ms nowM nowD st).2.2.running = true ∧
          current_elapsed_ms nowM (next_run note ms nowM nowD st).2.2 = 0) ∧
        (ms = none →
          (next_run note ms nowM nowD st).2.1 = "saved_and_started_next" ∧
          (next_run note ms nowM nowD st).2.2.running = true ∧
          current_elapsed_ms nowM (next_run note ms nowM nowD st).2.2 = 0)) := by
  constructor
  · intro h
    simp [next_run, h]
  · intro h
    cases hd : st.started_at_dt with
    | none => exact absurd hd h
    | some d0 =>
      obtain ⟨hnote, hrsid, hrrn⟩ := nextRunRecord_fields note nowM nowD st d0
      obtain ⟨hlog, hsc, hrn, hnrun, hnsd, helz, hlog2, hsc2, hrn2, hrun2, helz2, -, -⟩ :=
        nextRunSavedState_fields note nowM nowD st d0
      cases ms with
      | none =>
        rw [next_run_noLimit_eq note nowM nowD st d0 hd]
        exact ⟨_, rfl, hnote, hrsid, hrrn, hlog2, hsc2, hrn2,
          fun m hm => by simp at hm,
          fun m hm => by simp at hm,
          fun _ => ⟨rfl, hrun2, helz2⟩⟩
      | some m =>
        rw [next_run_limit_eq note m nowM nowD st d0 hd]
        by_cases hge : st.saved_runs_count + 1 ≥ m
        · rw [if_pos hge]
          exact ⟨_, rfl, hnote, hrsid, hrrn, hlog, hsc, hrn,
            fun m2 hm2 hge2 => ⟨rfl, hnrun, hnsd, helz⟩,
            fun m2 hm2 hlt2 => by cases hm2; exact absurd hlt2 (by omega),
            fun hmn => by simp at hmn⟩
        · rw [if_neg hge]
          exact ⟨_, rfl, hnote, hrsid, hrrn, hlog2, hsc2, hrn2,
            fun m2 hm2 hge2 => by cases hm2; exact absurd hge2 (by omega),
            fun m2 hm2 hlt2 => ⟨rfl, hrun2, helz2⟩,
            fun hmn => by simp at hmn⟩

/-- Witness for C2 (end-to-end scenario B): on a started tracker with
saved count 0, a `next_run` with limit 1 ends with saved count 1, result
`saved_limit_reached`, and the tracker not running. -/
theorem next_run_spec_witness :
    let st : TrackerState :=
      { initTracker "s" with
        started_at_dt := some 0, started_monotonic := some 0, running := true }
    st.started_at_dt ≠ none ∧
    (next_run "boss" (some 1) 2 7 st).2.1 = "saved_limit_reached" ∧
    (next_run "boss" (some 1) 2 7 st).2.2.saved_runs_count = 1 ∧
    (next_run "boss" (some 1) 2 7 st).2.2.running = false := by
  have h := (next_run_spec "boss" (some 1) 2 7
    { initTracker "s" with
      started_at_dt := some 0, started_monotonic := some 0, running := true }).2
    (by simp)
  obtain ⟨rec, h1, h2, h3, h4, h5, h6, h7, hB, hC, hD⟩ := h
  obtain ⟨hs, hr, hsd, hel⟩ := hB 1 rfl (by omega)
  exact ⟨by simp, hs, h6.trans rfl, hr⟩

/-- `start` leaves the bookkeeping fields unchanged. -/
lemma start_frame (nowM : ℚ) (nowD : Int) (st : TrackerState) :
    (st.start nowM nowD).session_id = st.session_id ∧
    (st.start nowM nowD).run_number = st.run_number ∧
    (st.start nowM nowD).saved_runs_count = st.saved_runs_count ∧
    (st.start nowM nowD).log = st.log := by
  unfold TrackerState.start
  by_cases hr : st.running <;> by_cases hsd : st.started_at_dt = none <;>
    simp [hr, hsd]

/-- One `next_run` call preserves the run-numbering invariant. -/
lemma next_run_numbering (sid note : String) (ms : Option Nat) (nowM : ℚ)
    (nowD : Int) (st : TrackerState)
    (hsid : st.session_id = sid)
    (hmap : st.log.map (fun r => r.run_number) = List.range' 1 st.log.length)
    (hrn : st.run_number = st.log.length + 1)
    (hall : ∀ r ∈ st.log, r.session_id = sid) :
    (next_run note ms nowM nowD st).2.2.session_id = sid ∧
    (next_run note ms nowM nowD st).2.2.log.map (fun r => r.run_number) =
      List.range' 1 (next_run note ms nowM nowD st).2.2.log.length ∧
    (next_run note ms nowM nowD st).2.2.run_number =
      (next_run note ms nowM nowD st).2.2.log.length + 1 ∧
    ∀ r ∈ (next_run note ms nowM nowD st).2.2.log, r.session_id = sid := by
  cases hd : st.started_at_dt with
  | none =>
    obtain ⟨f1, f2, f3, f4⟩ := start_frame nowM nowD st
    simp only [next_run, hd]
    exact ⟨f1.trans hsid, by rw [f4, hmap], by rw [f4, f2, hrn], by rw [f4]; exact hall⟩
  | some d0 =>
    obtain ⟨hrnote, hrsid, hrrn⟩ := nextRunRecord_fields note nowM nowD st d0
    obtain ⟨hlog, hsc, hrn3, hnrun, hnsd, helz, hlog2, hsc2, hrn2, hrun2, helz2,
      hid1, hid2⟩ := nextRunSavedState_fields note nowM nowD st d0
    have hmap2 : (st.log ++ [nextRunRecord note nowM nowD st d0]).map
        (fun r => r.run_number) =
        List.range' 1 (st.log ++ [nextRunRecord note nowM nowD st d0]).length := by
      rw [List.map_append, hmap, List.length_append]
      simp only [List.map_cons, List.map_nil, List.length_cons, List.length_nil]
      rw [hrrn, hrn, List.range'_1_concat]
      simp [Nat.add_comm]
    have hall2 : ∀ r ∈ st.log ++ [nextRunRecord note nowM nowD st d0],
        r.session_id = sid := by
      intro r hmem
      rcases List.mem_append.mp hmem with hm | hm
      · exact hall r hm
      · rw [List.mem_singleton.mp hm]
        exact hrsid.trans hsid
    have hlen2 : st.run_number + 1 =
        (st.log ++ [nextRunRecord note nowM nowD st d0]).length + 1 := by
      rw [List.length_append, hrn]
      simp
    cases ms with
    | none =>
      rw [next_run_noLimit_eq note nowM nowD st d0 hd]
      exact ⟨hid2.trans hsid, by rw [hlog2]; exact hmap2,
        by rw [hlog2, hrn2]; exact hlen2, by rw [hlog2]; exact hall2⟩
    | some m =>
      rw [next_run_limit_eq note m nowM nowD st d0 hd]
      by_cases hge : st.saved_runs_count + 1 ≥ m
      · rw [if_pos hge]
        exact ⟨hid1.trans hsid, by rw [hlog]; exact hmap2,
          by rw [hlog, hrn3]; exact hlen2, by rw [hlog]; exact hall2⟩
      · rw [if_neg hge]
        exact ⟨hid2.trans hsid, by rw [hlog2]; exact hmap2,
          by rw [hlog2, hrn2]; exact hlen2, by rw [hlog2]; exact hall2⟩

/-- The run-numbering invariant survives any sequence of `next_run` calls. -/
lemma applyNextRuns_numbering (sid : String) (calls : List NextRunCall) :
    ∀ st : TrackerState,
      st.session_id = sid →
      st.log.map (fun r => r.run_number) = List.range' 1 st.log.length →
      st.run_number = st.log.length + 1 →
      (∀ r ∈ st.log, r.session_id = sid) →
      (applyNextRuns st calls).session_id = sid ∧
      (applyNextRuns st calls).log.map (fun r => r.run_number) =
        List.range' 1 (applyNextRuns st calls).log.length ∧
      (applyNextRuns st calls).run_number = (applyNextRuns st calls).log.length + 1 ∧
      ∀ r ∈ (applyNextRuns st calls).log, r.session_id = sid := by
  induction calls with
  | nil => intro st h1 h2 h3 h4; exact ⟨h1, h2, h3, h4⟩
  | cons c cs ih =>
    intro st h1 h2 h3 h4
    obtain ⟨g1, g2, g3, g4⟩ :=
      next_run_numbering sid c.note c.max_saved_runs c.nowM c.nowD st h1 h2 h3 h4
    exact ih _ g1 g2 g3 g4

/-- C7: starting from a fresh tracker, along any sequence of `next_run`
calls (no `reset_session`), the run number starts at 1, each saved record
carries the run number current at its save (so the stored numbers are
exactly 1, 2, ...), and the run number always equals the number of records
saved for the current session plus one. -/
theorem run_numbering_invariant (sid : String) (calls : List NextRunCall) :
    (applyNextRuns (initTracker sid) calls).session_id = sid ∧
    (applyNextRuns (initTracker sid) calls).log.map (fun r => r.run_number) =
      List.range' 1 (applyNextRuns (initTracker sid) calls).log.length ∧
    (applyNextRuns (initTracker sid) calls).run_number =
      countForSession sid (applyNextRuns (initTracker sid) calls).log + 1 ∧
    (applyNextRuns (initTracker sid) calls).run_number =
      (applyNextRuns (initTracker sid) calls).log.length + 1 ∧
    ∀ r ∈ (applyNextRuns (initTracker sid) calls).log, r.session_id = sid := by
  obtain ⟨g1, g2, g3, g4⟩ := applyNextRuns_numbering sid calls (initTracker sid)
    rfl rfl rfl (by intro r hr; simp [initTracker] at hr)
  have hcount : countForSession sid (applyNextRuns (initTracker sid) calls).log =
      (applyNextRuns (initTracker sid) calls).log.length := by
    unfold countForSession
    rw [List.filter_eq_self.mpr]
    intro a ha
    exact beq_iff_eq.mpr (g4 a ha)
  exact ⟨g1, g2, by rw [hcount]; exact g3, g3, g4⟩

/-- C4: both throttle checks answer false the first time an id is seen;
afterwards they throttle exactly when the monotonic delta since the
previous call for the same id is below the guard; every call re-stamps the
id, so the guard slides: of three calls each within the guard of its
predecessor, the first passes and the second and third are both throttled
(even when the third lies beyond the guard measured from the first). -/
theorem throttle_spec :
    (∀ (kb : HotkeyBackend) (a : String) (now : ℚ),
      kb.last_action_at a = none → (should_throttle_action kb a now).1 = false) ∧
    (∀ (kb : HotkeyBackend) (a : String) (now t : ℚ), kb.last_action_at a = some t →
      ((should_throttle_action kb a now).1 = true ↔
        (now - t) * 1000 < (kb.repeat_guard_ms : ℚ))) ∧
    (∀ (kb : HotkeyBackend) (a : String) (now : ℚ),
      ((should_throttle_action kb a now).2).last_action_at a = some now) ∧
    (∀ (cb : ControllerBackend) (d : String) (now : ℚ),
      cb.last_fired_at d = none → (should_throttle cb d now).1 = false) ∧
    (∀ (cb : ControllerBackend) (d : String) (now t : ℚ), cb.last_fired_at d = some t →
      0 ≤ now - t →
      ((should_throttle cb d now).1 = true ↔
        (now - t) * 1000 < (cb.config.repeat_guard_ms : ℚ))) ∧
    (∀ (cb : ControllerBackend) (d : String) (now : ℚ),
      ((should_throttle cb d now).2).last_fired_at d = some now) ∧
    (∀ (kb : HotkeyBackend) (a : String) (t0 t1 t2 : ℚ),
      kb.last_action_at a = none →
      (t1 - t0) * 1000 < (kb.repeat_guard_ms : ℚ) →
      (t2 - t1) * 1000 < (kb.repeat_guard_ms : ℚ) →
      (should_throttle_action kb a t0).1 = false ∧
      (should_throttle_action (should_throttle_action kb a t0).2 a t1).1 = true ∧
      (should_throttle_action
        (should_throttle_action (should_throttle_action kb a t0).2 a t1).2 a t2).1
        = true) := by
  have hk1 : ∀ (kb : HotkeyBackend) (a : String) (now : ℚ),
      kb.last_action_at a = none → (should_throttle_action kb a now).1 = false := by
    intro kb a now h
    simp [should_throttle_action, h]
  have hk2 : ∀ (kb : HotkeyBackend) (a : String) (now t : ℚ),
      kb.last_action_at a = some t →
      ((should_throttle_action kb a now).1 = true ↔
        (now - t) * 1000 < (kb.repeat_guard_ms : ℚ)) := by
    intro kb a now t h
    simp [should_throttle_action, h]
  have upd : ∀ (kb : HotkeyBackend) (a : String) (now : ℚ),
      ((should_throttle_action kb a now).2).last_action_at a = some now := by
    intro kb a now
    cases h : kb.last_action_at a <;> simp [should_throttle_action, h]
  have grd : ∀ (kb : HotkeyBackend) (a : String) (now : ℚ),
      ((should_throttle_action kb a now).2).repeat_guard_ms = kb.repeat_guard_ms := by
    intro kb a now
    cases h : kb.last_action_at a <;> simp [should_throttle_action, h]
  refine ⟨hk1, hk2, upd, ?_, ?_, ?_, ?_⟩
  · intro cb d now h
    simp [should_throttle, h]
  · intro cb d now t h hmono
    have hnn : 0 ≤ (now - t) * 1000 := by positivity
    rcases le_or_lt 0 cb.config.repeat_guard_ms with hg | hg
    · simp [should_throttle, h, max_eq_left hg]
    · have hmax : max cb.config.repeat_guard_ms 0 = 0 := max_eq_right hg.le
      simp only [should_throttle, h, hmax]
      constructor
      · intro hx
        simp only [decide_eq_true_eq, Int.cast_zero] at hx
        exact absurd hx (not_lt.mpr hnn)
      · intro hx
        have : ((cb.config.repeat_guard_ms : Int) : ℚ) < 0 := by
          exact_mod_cast hg
        exact absurd (hnn.trans_lt hx) (lt_asymm this)
  · intro cb d now
    cases h : cb.last_fired_at d <;> simp [should_throttle, h]
  · intro kb a t0 t1 t2 h0 h1 h2
    have s0 := hk1 kb a t0 h0
    have s1 := (hk2 _ a t1 t0 (upd kb a t0)).mpr (by rw [grd kb a t0]; exact h1)
    have s2 := (hk2 _ a t2 t1 (upd _ a t1)).mpr
      (by rw [grd _ a t1, grd kb a t0]; exact h2)
    exact ⟨s0, s1, s2⟩

/-- Witness for C4: a fresh keyboard backend with the fixed 700 ms guard
and calls at 0 s, 0.5 s and 1 s: the pattern is (false, true, true) --
the third call is throttled against the second (500 ms before it) although
it lies a full second after the first, showing the sliding guard. -/
theorem throttle_spec_witness :
    (HotkeyBackend.init (fun _ => []) true).last_action_at "next_run" = none ∧
    ((1 : ℚ) / 2 - 0) * 1000 <
      ((HotkeyBackend.init (fun _ => []) true).repeat_guard_ms : ℚ) ∧
    ((1 : ℚ) - 1 / 2) * 1000 <
      ((HotkeyBackend.init (fun _ => []) true).repeat_guard_ms : ℚ) ∧
    ¬ ((1 : ℚ) - 0) * 1000 <
      ((HotkeyBackend.init (fun _ => []) true).repeat_guard_ms : ℚ) ∧
    (should_throttle_action (HotkeyBackend.init (fun _ => []) true) "next_run" 0).1
      = false ∧
    (should_throttle_action
      (should_throttle_action (HotkeyBackend.init (fun _ => []) true) "next_run" 0).2
      "next_run" (1 / 2)).1 = true ∧
    (should_throttle_action
      (should_throttle_action
        (should_throttle_action (HotkeyBackend.init (fun _ => []) true) "next_run" 0).2
        "next_run" (1 / 2)).2 "next_run" 1).1 = true := by
  have h := throttle_spec.2.2.2.2.2.2 (HotkeyBackend.init (fun _ => []) true)
    "next_run" 0 (1 / 2) 1 rfl (by norm_num [HotkeyBackend.init])
    (by norm_num [HotkeyBackend.init])
  exact ⟨rfl, by norm_num [HotkeyBackend.init], by norm_num [HotkeyBackend.init],
    by norm_num [HotkeyBackend.init], h.1, h.2.1, h.2.2⟩

/-- C10 counterexample: the claim's final clause ("the keyboard debounce
window differs from the configured controller debounce window in every
configuration") fails for a configuration whose `repeat_guard_ms` is 700:
there the keyboard guard equals both the configured field and the
effective controller guard. -/
theorem keyboard_guard_coincides_at_700 :
    (HotkeyBackend.init (fun _ => []) true).repeat_guard_ms =
      (ControllerConfig.mk true 0 0 (fun _ => "none") (fun _ => "") 700).repeat_guard_ms
      ∧
    (HotkeyBackend.init (fun _ => []) true).repeat_guard_ms =
      max (ControllerConfig.mk true 0 0 (fun _ => "none") (fun _ => "")
        700).repeat_guard_ms 0 := by
  exact ⟨rfl, rfl⟩

/-- C10 (amended): every `HotkeyBackend` is constructed with the fixed
guard 700 ms regardless of its keyboard map or enabled flag (the
constructor reads no configured guard), `reload_bindings` and the throttle
check never change it, the throttle comparison uses exactly this stored
guard, and the keyboard window therefore differs from the configured
controller window in every configuration whose `repeat_guard_ms` is not
700 (in particular under the default 150). -/
theorem keyboard_guard_fixed_700 :
    (∀ (km : String → PyStr) (e : Bool),
      (HotkeyBackend.init km e).repeat_guard_ms = 700) ∧
    (∀ (st : HotkeyBackend) (km : String → PyStr) (e : Option Bool),
      (reload_bindings st km e).repeat_guard_ms = st.repeat_guard_ms) ∧
    (∀ (st : HotkeyBackend) (a : String) (now : ℚ),
      ((should_throttle_action st a now).2).repeat_guard_ms = st.repeat_guard_ms) ∧
    (∀ (st : HotkeyBackend) (a : String) (now t : ℚ), st.last_action_at a = some t →
      (should_throttle_action st a now).1 =
        decide ((now - t) * 1000 < (st.repeat_guard_ms : ℚ))) ∧
    (∀ g : Int, g ≠ 700 →
      (HotkeyBackend.init (fun _ => []) true).repeat_guard_ms ≠ max g 0) := by
  refine ⟨fun _ _ => rfl, ?_, ?_, ?_, ?_⟩
  · intro st km e
    cases e <;> rfl
  · intro st a now
    cases h : st.last_action_at a <;> simp [should_throttle_action, h]
  · intro st a now t h
    simp [should_throttle_action, h]
  · intro g hg
    have : (HotkeyBackend.init (fun _ => []) true).repeat_guard_ms = 700 := rfl
    rw [this]
    omega

/-- Witness for C10: the reloaded backend keeps the 700 ms guard, the
throttle comparison with a stamp 0.2 s earlier is decided against 700, and
the default controller guard 150 differs from the keyboard guard. -/
theorem keyboard_guard_fixed_700_witness :
    (HotkeyBackend.init (fun _ => []) true).repeat_guard_ms = 700 ∧
    (reload_bindings (HotkeyBackend.init (fun _ => []) true) (fun _ => []) none
      ).repeat_guard_ms = (HotkeyBackend.init (fun _ => []) true).repeat_guard_ms ∧
    ({ HotkeyBackend.init (fun _ => []) true with
        last_action_at := fun _ => some 0 } : HotkeyBackend).last_action_at
      "next_run" = some 0 ∧
    (should_throttle_action
      { HotkeyBackend.init (fun _ => []) true with last_action_at := fun _ => some 0 }
      "next_run" (1 / 5)).1 = true ∧
    (150 : Int) ≠ 700 ∧
    (HotkeyBackend.init (fun _ => []) true).repeat_guard_ms ≠ max (150 : Int) 0 := by
  have h := keyboard_guard_fixed_700
  refine ⟨h.1 (fun _ => []) true,
    h.2.1 (HotkeyBackend.init (fun _ => []) true) (fun _ => []) none, rfl, ?_, ?_,
    h.2.2.2.2 150 (by decide)⟩
  · have := h.2.2.2.1
      { HotkeyBackend.init (fun _ => []) true with last_action_at := fun _ => some 0 }
      "next_run" (1 / 5) 0 rfl
    rw [this]
    norm_num [HotkeyBackend.init]
  · decide

/-- C9: per poll tick at most one direction is resolved (the result is a
single `Option Dir`), the sources are consulted in the fixed priority
XInput > hat > axis pair > button pair stopping at the first definite
direction: XInput wins outright, the hat wins whenever XInput is silent,
an edge-triggered axis direction wins over the buttons (whose edge state
is then not even updated), and the button pair is consulted exactly when
every higher source reports nothing; in particular, with the hat newly at
(0,1) and the axis pair quantizing to (0,-1) in the same tick, the single
emitted direction is the hat's "up" and the axis edge state is not
touched; and the hat maps exactly the four cardinal values, diagonals and
centre giving none. -/
theorem controller_direction_priority :
    (∀ (inp : TickInput) (st : TickState) (b : Nat) (d : Dir),
      inp.xinput = some b → (poll_xinput_dpad b st.prev_xinput).1 = some d →
      (resolveTick inp st).1 = some d) ∧
    (∀ (inp : TickInput) (st : TickState) (v : Int × Int) (d : Dir),
      (∀ b, inp.xinput = some b → (poll_xinput_dpad b st.prev_xinput).1 = none) →
      inp.hat = some v → some v ≠ st.prev_hat → direction_from_hat v = some d →
      (resolveTick inp st).1 = some d) ∧
    poll_axes_dpad 0 (-1) = some Dir.up ∧
    (∀ st : TickState, st.prev_hat ≠ some (0, 1) →
      (resolveTick ⟨none, some (0, 1), some (0, -1), none⟩ st).1 = some Dir.up ∧
      (resolveTick ⟨none, some (0, 1), some (0, -1), none⟩ st).2.prev_hat =
        some (0, 1) ∧
      (resolveTick ⟨none, some (0, 1), some (0, -1), none⟩ st).2.prev_axes_dir =
        st.prev_axes_dir) ∧
    (direction_from_hat (0, 1) = some Dir.up ∧
     direction_from_hat (1, 0) = some Dir.right ∧
     direction_from_hat (0, -1) = some Dir.down ∧
     direction_from_hat (-1, 0) = some Dir.left) ∧
    (∀ v : Int × Int, v ≠ (0, 1) → v ≠ (1, 0) → v ≠ (0, -1) → v ≠ (-1, 0) →
      direction_from_hat v = none) ∧
    (∀ (inp : TickInput) (st : TickState) (a : ℚ × ℚ) (d : Dir),
      (∀ b, inp.xinput = some b → (poll_xinput_dpad b st.prev_xinput).1 = none) →
      (∀ v, inp.hat = some v → some v ≠ st.prev_hat → direction_from_hat v = none) →
      inp.axes = some a → poll_axes_dpad a.1 a.2 = some d →
      some d ≠ st.prev_axes_dir →
      (resolveTick inp st).1 = some d ∧
      (resolveTick inp st).2.prev_buttons = st.prev_buttons) ∧
    (∀ (inp : TickInput) (st : TickState) (pressed : Finset Nat),
      (∀ b, inp.xinput = some b → (poll_xinput_dpad b st.prev_xinput).1 = none) →
      (∀ v, inp.hat = some v → some v ≠ st.prev_hat → direction_from_hat v = none) →
      (∀ a : ℚ × ℚ, inp.axes = some a → poll_axes_dpad a.1 a.2 = none ∨
        poll_axes_dpad a.1 a.2 = st.prev_axes_dir) →
      inp.buttons = some pressed →
      (resolveTick inp st).1 = (poll_buttons_dpad pressed st.prev_buttons).1 ∧
      (resolveTick inp st).2.prev_buttons = pressed) := by
  refine ⟨?_, ?_, by norm_num [poll_axes_dpad], ?_, by refine ⟨rfl, rfl, rfl, rfl⟩,
    ?_, ?_, ?_⟩
  · intro inp st b d hx hp
    simp [resolveTick, hx, hp]
  · intro inp st v d hxq hhat hne hdir
    cases hx : inp.xinput with
    | none => simp [resolveTick, hx, hhat, hne, hdir]
    | some b => simp [resolveTick, hx, hxq b hx, hhat, hne, hdir]
  · intro st hprev
    have hne : some ((0 : Int), (1 : Int)) ≠ st.prev_hat := fun h => hprev h.symm
    refine ⟨?_, ?_, ?_⟩ <;>
      simp [resolveTick, hne, direction_from_hat]
  · intro v h1 h2 h3 h4
    simp [direction_from_hat, h1, h2, h3, h4]
  · intro inp st a d hx hh ha had hne
    cases hxi : inp.xinput with
    | none =>
      cases hht : inp.hat with
      | none =>
        refine ⟨?_, ?_⟩ <;> simp [resolveTick, hxi, hht, ha, had, hne]
      | some v =>
        by_cases hvp : some v ≠ st.prev_hat
        · refine ⟨?_, ?_⟩ <;>
            simp [resolveTick, hxi, hht, hvp, hh v hht hvp, ha, had, hne]
        · refine ⟨?_, ?_⟩ <;> simp [resolveTick, hxi, hht, hvp, ha, had, hne]
    | some b =>
      cases hht : inp.hat with
      | none =>
        refine ⟨?_, ?_⟩ <;> simp [resolveTick, hxi, hx b hxi, hht, ha, had, hne]
      | some v =>
        by_cases hvp : some v ≠ st.prev_hat
        · refine ⟨?_, ?_⟩ <;>
            simp [resolveTick, hxi, hx b hxi, hht, hvp, hh v hht hvp, ha, had, hne]
        · refine ⟨?_, ?_⟩ <;>
            simp [resolveTick, hxi, hx b hxi, hht, hvp, ha, had, hne]
  · intro inp st pressed hx hh haxq hbt
    cases hxi : inp.xinput with
    | none =>
      cases hht : inp.hat with
      | none =>
        cases hax : inp.axes with
        | none =>
          refine ⟨?_, ?_⟩ <;>
            simp [resolveTick, hxi, hht, hax, hbt, poll_buttons_dpad]
        | some a =>
          rcases haxq a hax with h | h
          · by_cases hpa : (none : Option Dir) ≠ st.prev_axes_dir <;>
              refine ⟨?_, ?_⟩ <;>
                simp [resolveTick, hxi, hht, hax, h, hpa, hbt, poll_buttons_dpad]
          · refine ⟨?_, ?_⟩ <;>
              simp [resolveTick, hxi, hht, hax, h, hbt, poll_buttons_dpad]
      | some v =>
        by_cases hvp : some v ≠ st.prev_hat
        · cases hax : inp.axes with
          | none =>
            refine ⟨?_, ?_⟩ <;>
              simp [resolveTick, hxi, hht, hvp, hh v hht hvp, hax, hbt,
                poll_buttons_dpad]
          | some a =>
            rcases haxq a hax with h | h
            · by_cases hpa : (none : Option Dir) ≠ st.prev_axes_dir <;>
                refine ⟨?_, ?_⟩ <;>
                  simp [resolveTick, hxi, hht, hvp, hh v hht hvp, hax, h, hpa,
                    hbt, poll_buttons_dpad]
            · refine ⟨?_, ?_⟩ <;>
                simp [resolveTick, hxi, hht, hvp, hh v hht hvp, hax, h, hbt,
                  poll_buttons_dpad]
        · cases hax : inp.axes with
          | none =>
            refine ⟨?_, ?_⟩ <;>
              simp [resolveTick, hxi, hht, hvp, hax, hbt, poll_buttons_dpad]
          | some a =>
            rcases haxq a hax with h | h
            · by_cases hpa : (none : Option Dir) ≠ st.prev_axes_dir <;>
                refine ⟨?_, ?_⟩ <;>
                  simp [resolveTick, hxi, hht, hvp, hax, h, hpa, hbt,
                    poll_buttons_dpad]
            · refine ⟨?_, ?_⟩ <;>
                simp [resolveTick, hxi, hht, hvp, hax, h, hbt, poll_buttons_dpad]
    | some b =>
      cases hht : inp.hat with
      | none =>
        cases hax : inp.axes with
        | none =>
          refine ⟨?_, ?_⟩ <;>
            simp [resolveTick, hxi, hx b hxi, hht, hax, hbt, poll_buttons_dpad]
        | some a =>
          rcases haxq a hax with h | h
          · by_cases hpa : (none : Option Dir) ≠ st.prev_axes_dir <;>
              refine ⟨?_, ?_⟩ <;>
                simp [resolveTick, hxi, hx b hxi, hht, hax, h, hpa, hbt,
                  poll_buttons_dpad]
          · refine ⟨?_, ?_⟩ <;>
              simp [resolveTick, hxi, hx b hxi, hht, hax, h, hbt,
                poll_buttons_dpad]
      | some v =>
        by_cases hvp : some v ≠ st.prev_hat
        · cases hax : inp.axes with
          | none =>
            refine ⟨?_, ?_⟩ <;>
              simp [resolveTick, hxi, hx b hxi, hht, hvp, hh v hht hvp, hax,
                hbt, poll_buttons_dpad]
          | some a =>
            rcases haxq a hax with h | h
            · by_cases hpa : (none : Option Dir) ≠ st.prev_axes_dir <;>
                refine ⟨?_, ?_⟩ <;>
                  simp [resolveTick, hxi, hx b hxi, hht, hvp, hh v hht hvp,
                    hax, h, hpa, hbt, poll_buttons_dpad]
            · refine ⟨?_, ?_⟩ <;>
                simp [resolveTick, hxi, hx b hxi, hht, hvp, hh v hht hvp, hax,
                  h, hbt, poll_buttons_dpad]
        · cases hax : inp.axes with
          | none =>
            refine ⟨?_, ?_⟩ <;>
              simp [resolveTick, hxi, hx b hxi, hht, hvp, hax, hbt,
                poll_buttons_dpad]
          | some a =>
            rcases haxq a hax with h | h
            · by_cases hpa : (none : Option Dir) ≠ st.prev_axes_dir <;>
                refine ⟨?_, ?_⟩ <;>
                  simp [resolveTick, hxi, hx b hxi, hht, hvp, hax, h, hpa, hbt,
                    poll_buttons_dpad]
            · refine ⟨?_, ?_⟩ <;>
                simp [resolveTick, hxi, hx b hxi, hht, hvp, hax, h, hbt,
                  poll_buttons_dpad]

/-- Witness for C9: concrete instances -- an XInput bitmask newly showing
the up bit wins the tick outright; the fusion scenario on a fresh tick
state emits exactly the hat's "up"; an edge-triggered axis "up" beats a
newly pressed D-pad button that is mapped to "down" (whose edge state
stays untouched); and with every higher source silent the button source
is consulted and its "down" is emitted. -/
theorem controller_direction_priority_witness :
    (⟨some 1, some (0, 1), some (0, -1), none⟩ : TickInput).xinput = some 1 ∧
    (poll_xinput_dpad 1 (⟨none, none, ∅, none⟩ : TickState).prev_xinput).1 =
      some Dir.up ∧
    (resolveTick ⟨some 1, some (0, 1), some (0, -1), none⟩
      ⟨none, none, ∅, none⟩).1 = some Dir.up ∧
    (⟨none, none, ∅, none⟩ : TickState).prev_hat ≠ some (0, 1) ∧
    (resolveTick ⟨none, some (0, 1), some (0, -1), none⟩
      ⟨none, none, ∅, none⟩).1 = some Dir.up ∧
    buttonDpadMap 12 = some Dir.down ∧
    (resolveTick ⟨none, none, some (0, -1), some {12}⟩
      ⟨none, none, ∅, none⟩).1 = some Dir.up ∧
    (resolveTick ⟨none, none, some (0, -1), some {12}⟩
      ⟨none, none, ∅, none⟩).2.prev_buttons = ∅ ∧
    (resolveTick ⟨none, none, none, some {12}⟩
      ⟨none, none, ∅, none⟩).1 = some Dir.down ∧
    (resolveTick ⟨none, none, none, some {12}⟩
      ⟨none, none, ∅, none⟩).2.prev_buttons = {12} := by
  have hld : Nat.ldiff 1 0 = 1 := by
    apply Nat.eq_of_testBit_eq
    intro k
    simp [Nat.testBit_ldiff]
  have hpx : (poll_xinput_dpad 1 (none : Option Nat)).1 = some Dir.up := by
    simp only [poll_xinput_dpad, Option.getD_none, hld]
    norm_num
  have had : poll_axes_dpad ((0 : ℚ), (-1 : ℚ)).1 ((0 : ℚ), (-1 : ℚ)).2 =
      some Dir.up := by
    norm_num [poll_axes_dpad]
  have h7 := controller_direction_priority.2.2.2.2.2.2.1
    (⟨none, none, some (0, -1), some {12}⟩ : TickInput)
    (⟨none, none, ∅, none⟩ : TickState) ((0 : ℚ), (-1 : ℚ)) Dir.up
    (fun b hb => by simp at hb) (fun v hv => by simp at hv) rfl had (by simp)
  have h8 := controller_direction_priority.2.2.2.2.2.2.2
    (⟨none, none, none, some {12}⟩ : TickInput)
    (⟨none, none, ∅, none⟩ : TickState) {12}
    (fun b hb => by simp at hb) (fun v hv => by simp at hv)
    (fun a ha => by simp at ha) rfl
  have hpoll : (poll_buttons_dpad ({12} : Finset Nat) (∅ : Finset Nat)).1 =
      some Dir.down := by
    simp [poll_buttons_dpad, Finset.sdiff_empty, Finset.sort_singleton,
      buttonDpadMap]
  refine ⟨rfl, hpx, ?_, by simp, ?_, by norm_num [buttonDpadMap], h7.1, h7.2,
    h8.1.trans hpoll, h8.2⟩
  · exact controller_direction_priority.1 ⟨some 1, some (0, 1), some (0, -1), none⟩
      ⟨none, none, ∅, none⟩ 1 Dir.up rfl hpx
  · exact (controller_direction_priority.2.2.2.1 ⟨none, none, ∅, none⟩ (by simp)).1

/-! Lemmas for the combo-codec claims. -/

lemma mem_pySplitAux (sep : Char) :
    ∀ (s : PyStr) (acc : List Char), sep ∉ acc →
      ∀ x ∈ pySplitAux sep s acc, sep ∉ x := by
  intro s
  induction s with
  | nil =>
    intro acc hacc x hx
    simp only [pySplitAux, List.mem_singleton] at hx
    subst hx
    simpa using hacc
  | cons c cs ih =>
    intro acc hacc x hx
    by_cases hc : c = sep
    · rw [pySplitAux, if_pos hc] at hx
      rcases List.mem_cons.mp hx with h | h
      · subst h
        simpa using hacc
      · exact ih [] (by simp) x h
    · rw [pySplitAux, if_neg hc] at hx
      have hacc2 : sep ∉ c :: acc := by
        simp only [List.mem_cons]
        push_neg
        exact ⟨fun e => hc e.symm, hacc⟩
      exact ih (c :: acc) hacc2 x hx

lemma pySplitAux_nosep (sep : Char) :
    ∀ (s : PyStr) (acc : List Char), sep ∉ s →
      pySplitAux sep s acc = [acc.reverse ++ s] := by
  intro s
  induction s with
  | nil => intro acc _; simp [pySplitAux]
  | cons c cs ih =>
    intro acc h
    have hc : ¬ c = sep := fun e => h (by simp [e])
    rw [pySplitAux, if_neg hc, ih (c :: acc) (fun hm => h (List.mem_cons_of_mem c hm))]
    simp

lemma pySplitAux_break (sep : Char) :
    ∀ (x : PyStr) (acc : List Char) (rest : PyStr), sep ∉ x →
      pySplitAux sep (x ++ sep :: rest) acc =
        (acc.reverse ++ x) :: pySplitAux sep rest [] := by
  intro x
  induction x with
  | nil =>
    intro acc rest _
    simp [pySplitAux]
  | cons c cs ih =>
    intro acc rest h
    have hc : ¬ c = sep := fun e => h (by simp [e])
    simp only [List.cons_append, pySplitAux, List.append_eq, if_neg hc]
    rw [ih (c :: acc) rest (fun hm => h (List.mem_cons_of_mem c hm))]
    simp

lemma pySplit_pyJoin (sep : Char) :
    ∀ L : List PyStr, L ≠ [] → (∀ x ∈ L, sep ∉ x) →
      pySplit sep (pyJoin [sep] L) = L := by
  intro L
  induction L with
  | nil => intro h _; exact absurd rfl h
  | cons x xs ih =>
    intro _ hall
    cases xs with
    | nil =>
      show pySplitAux sep (pyJoin [sep] [x]) [] = [x]
      rw [pyJoin, pySplitAux_nosep sep x [] (hall x (by simp))]
      simp
    | cons y ys =>
      show pySplitAux sep (pyJoin [sep] (x :: y :: ys)) [] = x :: y :: ys
      rw [pyJoin, List.append_assoc, List.singleton_append,
        pySplitAux_break sep x [] _ (hall x (by simp))]
      · rw [show pySplitAux sep (pyJoin [sep] (y :: ys)) [] =
          pySplit sep (pyJoin [sep] (y :: ys)) from rfl]
        rw [ih (by simp) (fun z hz => hall z (List.mem_cons_of_mem x hz))]
        simp
      · simp

lemma toNat_ofNat_valid (m : Nat) (hm : m < 55296) : (Char.ofNat m).toNat = m := by
  rw [Char.ofNat, dif_pos (Or.inl hm)]
  rfl

lemma toLower_eq_plus (c : Char) (h : c.toLower = '+') : c = '+' := by
  have h0 : (if c.toNat ≥ 65 ∧ c.toNat ≤ 90 then Char.ofNat (c.toNat + 32) else c)
      = '+' := h
  split at h0
  · rename_i hc
    exfalso
    obtain ⟨h1, h2⟩ := hc
    have h3 : (Char.ofNat (c.toNat + 32)).toNat = c.toNat + 32 :=
      toNat_ofNat_valid _ (by omega)
    rw [h0] at h3
    have h4 : ('+' : Char).toNat = 43 := rfl
    omega
  · exact h0

lemma mem_pyStrip (s : PyStr) (a : Char) (h : a ∈ pyStrip s) : a ∈ s := by
  unfold pyStrip at h
  rw [List.mem_reverse] at h
  have h2 := (List.dropWhile_sublist _).subset h
  rw [List.mem_reverse] at h2
  exact (List.dropWhile_sublist _).subset h2

lemma comboParts_facts (s : PyStr) :
    ∀ x ∈ comboParts s, x ≠ [] ∧ '+' ∉ x := by
  intro x hx
  unfold comboParts at hx
  rw [List.mem_filterMap] at hx
  obtain ⟨p, hp, hpx⟩ := hx
  by_cases hs : pyStrip p = []
  · rw [if_pos hs] at hpx
    exact absurd hpx (by simp)
  · rw [if_neg hs] at hpx
    have hx2 : x = pyLower (pyStrip p) := (Option.some_injective _ hpx).symm
    subst hx2
    refine ⟨fun he => hs (List.map_eq_nil_iff.mp he), ?_⟩
    intro hplus
    rw [pyLower, List.mem_map] at hplus
    obtain ⟨c, hc, hceq⟩ := hplus
    have hc2 : c = '+' := toLower_eq_plus c hceq
    subst hc2
    have hin : '+' ∈ p := mem_pyStrip p _ hc
    exact mem_pySplitAux '+' s [] (by simp) p hp hin

lemma synMap_not_mod (p : PyStr) (h : isModName (synMap p) = false) : synMap p = p := by
  unfold synMap at h ⊢
  by_cases h1 : p = "command".toList
  · rw [if_pos h1] at h
    exact absurd h (by decide)
  · rw [if_neg h1] at h ⊢
    by_cases h2 : p = "option".toList
    · rw [if_pos h2] at h
      exact absurd h (by decide)
    · rw [if_neg h2] at h ⊢
      by_cases h3 : p = "control".toList
      · rw [if_pos h3] at h
        exact absurd h (by decide)
      · rw [if_neg h3]

lemma modName_facts (x : PyStr) (h : isModName x = true) : x ≠ [] ∧ '+' ∉ x := by
  unfold isModName at h
  simp only [Bool.or_eq_true, decide_eq_true_eq] at h
  rcases h with ((h | h) | h) | h <;> subst h <;> exact ⟨by decide, by decide⟩

lemma normLoop_eq :
    ∀ (parts : List PyStr) (mods : List PyStr) (key : PyStr),
      normLoop parts mods key =
        (((parts.map synMap).filter isModName).foldl insMod mods,
         ((parts.map synMap).filter (fun p => !(isModName p))).getLastD key) := by
  intro parts
  induction parts with
  | nil => intro mods key; rfl
  | cons part rest ih =>
    intro mods key
    by_cases h : isModName (synMap part) = true
    · rw [normLoop, if_pos h,
        ih (if synMap part ∈ mods then mods else mods ++ [synMap part]) key,
        List.map_cons, List.filter_cons_of_pos h,
        List.filter_cons_of_neg (by simp [h]), List.foldl_cons]
      rfl
    · rw [normLoop, if_neg h, ih mods (synMap part), List.map_cons,
        List.filter_cons_of_neg h, List.filter_cons_of_pos (by simpa using h),
        List.getLastD_cons]

lemma insMod_toFinset (ms : List PyStr) (p : PyStr) :
    (insMod ms p).toFinset = insert p ms.toFinset := by
  unfold insMod
  split
  · rename_i h
    exact (Finset.insert_eq_self.mpr (List.mem_toFinset.mpr h)).symm
  · rw [List.toFinset_append]
    ext a
    simp only [Finset.mem_union, List.mem_toFinset, List.toFinset_cons,
      List.toFinset_nil, Finset.mem_insert, Finset.not_mem_empty, or_false,
      List.mem_singleton]
    tauto

lemma foldl_insMod_toFinset :
    ∀ (l ms : List PyStr), (l.foldl insMod ms).toFinset = ms.toFinset ∪ l.toFinset := by
  intro l
  induction l with
  | nil => intro ms; simp
  | cons a l ih =>
    intro ms
    rw [List.foldl_cons, ih, insMod_toFinset]
    ext x
    simp only [Finset.mem_union, Finset.mem_insert, List.toFinset_cons,
      List.mem_toFinset]
    tauto

lemma mem_foldl_insMod :
    ∀ (l ms : List PyStr) (x : PyStr), x ∈ l.foldl insMod ms → x ∈ ms ∨ x ∈ l := by
  intro l
  induction l with
  | nil => intro ms x h; exact Or.inl h
  | cons a l ih =>
    intro ms x h
    rw [List.foldl_cons] at h
    rcases ih (insMod ms a) x h with h2 | h2
    · unfold insMod at h2
      split at h2
      · exact Or.inl h2
      · rcases List.mem_append.mp h2 with h3 | h3
        · exact Or.inl h3
        · exact Or.inr (by simp [List.mem_singleton.mp h3])
    · exact Or.inr (List.mem_cons_of_mem a h2)

lemma pyJoin_concat_ne_nil (sep : Char) :
    ∀ (L : List PyStr) (k : PyStr), k ≠ [] → pyJoin [sep] (L ++ [k]) ≠ [] := by
  intro L k hk
  cases L with
  | nil => simpa [pyJoin] using hk
  | cons a L =>
    cases hL : L ++ [k] with
    | nil => exact absurd hL (by simp)
    | cons b M =>
      rw [List.cons_append, hL, pyJoin] <;> simp

/-- Key characterization: whenever a raw combo string names a key token
`k`, `parse_combo_string` returns exactly the named modifier set paired
with `k`. -/
lemma parse_combo_eq_of_keyNamed (s : PyStr) (k : PyStr)
    (hk : keyNamed s = some k) :
    parse_combo_string s = some (modsNamed s, k) := by
  have hparts : comboParts s ≠ [] := by
    intro he
    unfold keyNamed at hk
    rw [he] at hk
    simp at hk
  have hkn : ((comboParts s).map synMap).filter (fun p => !(isModName p)) ≠ [] := by
    intro he
    unfold keyNamed at hk
    rw [he] at hk
    simp at hk
  have hkmem : k ∈ ((comboParts s).map synMap).filter (fun p => !(isModName p)) :=
    List.mem_of_getLast?_eq_some (by unfold keyNamed at hk; exact hk)
  have hkfacts : k ≠ [] ∧ '+' ∉ k := by
    rw [List.mem_filter] at hkmem
    obtain ⟨hkm, hknot⟩ := hkmem
    rw [List.mem_map] at hkm
    obtain ⟨p, hpmem, hpeq⟩ := hkm
    have hnm : isModName (synMap p) = false := by
      rw [hpeq]
      simpa using hknot
    have : synMap p = p := synMap_not_mod p hnm
    rw [this] at hpeq
    subst hpeq
    exact comboParts_facts s p hpmem
  set modsList := ((comboParts s).map synMap).filter isModName with hml
  have hmods_facts : ∀ x ∈ modsList.foldl insMod [], x ≠ [] ∧ '+' ∉ x := by
    intro x hx
    rcases mem_foldl_insMod modsList [] x hx with h | h
    · exact absurd h (by simp)
    · rw [hml, List.mem_filter] at h
      exact modName_facts x h.2
  have hloop := normLoop_eq (comboParts s) [] []
  have hkey : (((comboParts s).map synMap).filter (fun p => !(isModName p))
      ).getLastD [] = k := by
    rw [List.getLastD_eq_getLast?]
    unfold keyNamed at hk
    rw [hk]
    rfl
  have hnorm : normalize_combo_string s =
      pyJoin ['+'] (modsList.foldl insMod [] ++ [k]) := by
    unfold normalize_combo_string
    rw [if_neg (by simpa using hparts)]
    rw [hloop]
    simp only
    rw [hkey]
    rw [if_neg hkfacts.1]
  have hsplit : pySplit '+' (normalize_combo_string s) =
      modsList.foldl insMod [] ++ [k] := by
    rw [hnorm]
    apply pySplit_pyJoin
    · simp
    · intro x hx
      rcases List.mem_append.mp hx with h | h
      · exact (hmods_facts x h).2
      · rw [List.mem_singleton.mp h]
        exact hkfacts.2
  have hne : normalize_combo_string s ≠ [] := by
    rw [hnorm]
    exact pyJoin_concat_ne_nil '+' _ k hkfacts.1
  unfold parse_combo_string
  rw [if_neg hne, hsplit]
  rw [if_neg (by simp)]
  rw [List.dropLast_concat, List.getLastD_concat, if_neg hkfacts.1]
  have hfilter : (modsList.foldl insMod []).filter (fun p => p ≠ []) =
      modsList.foldl insMod [] := by
    rw [List.filter_eq_self]
    intro a ha
    simpa using (hmods_facts a ha).1
  rw [hfilter]
  have hfin : (modsList.foldl insMod []).toFinset = modsNamed s := by
    rw [foldl_insMod_toFinset]
    unfold modsNamed
    rw [hml]
    simp
  rw [hfin]

/-- C8: `parse_combo_string` is order-insensitive in its modifiers and
case-insensitive: any two raw combo strings naming the same modifier set
(after trimming, lowercasing and synonym folding, compared as sets) and
the same key token parse to equal results. -/
theorem parse_combo_order_insensitive (s1 s2 : PyStr) (k : PyStr)
    (h1 : keyNamed s1 = some k) (h2 : keyNamed s2 = some k)
    (hm : modsNamed s1 = modsNamed s2) :
    parse_combo_string s1 = parse_combo_string s2 := by
  rw [parse_combo_eq_of_keyNamed s1 k h1, parse_combo_eq_of_keyNamed s2 k h2, hm]

/-- Witness for C8: "Ctrl+Alt+1" and "alt+ctrl+1" name the same modifier
set and the key "1", and their parse results coincide. -/
theorem parse_combo_order_insensitive_witness :
    keyNamed "Ctrl+Alt+1".toList = some "1".toList ∧
    keyNamed "alt+ctrl+1".toList = some "1".toList ∧
    modsNamed "Ctrl+Alt+1".toList = modsNamed "alt+ctrl+1".toList ∧
    parse_combo_string "Ctrl+Alt+1".toList = parse_combo_string "alt+ctrl+1".toList := by
  have hm : modsNamed "Ctrl+Alt+1".toList = modsNamed "alt+ctrl+1".toList := by
    show (["ctrl".toList, "alt".toList] : List PyStr).toFinset =
      (["alt".toList, "ctrl".toList] : List PyStr).toFinset
    exact List.toFinset_eq_of_perm _ _ (List.Perm.swap _ _ _)
  exact ⟨by decide, by decide, hm,
    parse_combo_order_insensitive "Ctrl+Alt+1".toList "alt+ctrl+1".toList
      "1".toList (by decide) (by decide) hm⟩

end D2Runner
